import Mathlib

/-!
Verification of the TLCS live-chess relay client (`src-tauri/src/tlcs.rs` and
`src-tauri/src/tlcs_client.rs`).

The Rust source is shallowly embedded: pure functions become Lean functions,
file and socket sinks become explicit strings or byte lists, and the external
chess rules engine (the `shakmaty` crate, consumed as a black box at its
boundary) is abstracted as a record of parsing and move-application functions.
Machine integers (`u64`) are modelled as `Nat`; Rust's `parse::<u64>` failure
on overflow is modelled explicitly.
-/

/-! ## String helpers mirroring the Rust standard library primitives used -/

/-- Whitespace test used by `str::trim` / `str::split_whitespace`. -/
def isWsChar (c : Char) : Bool := c.isWhitespace

/-- `str::trim`: drop whitespace from both ends. -/
def trimStr (s : String) : String :=
  ⟨((s.data.dropWhile isWsChar).reverse.dropWhile isWsChar).reverse⟩

/-- `str::strip_prefix`: if `s` starts with `p`, the remainder, else `none`. -/
def strTail? (p s : String) : Option String :=
  if p.data.isPrefixOf s.data then some ⟨s.data.drop p.data.length⟩ else none

/-- Accumulator-style worker for `split_whitespace`. -/
def splitWsAux : List Char → List Char → List String
  | [], acc => if acc = [] then [] else [⟨acc.reverse⟩]
  | c :: rest, acc =>
      if isWsChar c then
        if acc = [] then splitWsAux rest [] else ⟨acc.reverse⟩ :: splitWsAux rest []
      else splitWsAux rest (c :: acc)

/-- `str::split_whitespace`: maximal non-whitespace chunks, no empties. -/
def splitWs (s : String) : List String := splitWsAux s.data []

/-- Digit-string to number: `some` iff the list is nonempty and all ASCII digits. -/
def digitsToNat (l : List Char) : Option Nat :=
  if l ≠ [] ∧ l.all Char.isDigit then
    some (l.foldl (fun n c => n * 10 + (c.toNat - 48)) 0)
  else none

/-- `str::parse::<u64>`: optional leading `+`, then ASCII digits, failing on
overflow past `u64::MAX`. -/
def parseU64? (s : String) : Option Nat :=
  let t :=
    match s.data with
    | '+' :: rest => rest
    | l => l
  match digitsToNat t with
  | some n => if n < 2 ^ 64 then some n else none
  | none => none

/-- `str::eq_ignore_ascii_case`, via ASCII lowercasing of both sides. -/
def eqIgnoreAsciiCase (a b : String) : Bool :=
  a.data.map Char.toLower == b.data.map Char.toLower

/-! ## GameState and the line protocol parser (`update_state_from_line`) -/

/-- `TlcsGameState` from `tlcs.rs`: the per-session game state mutated by the
read loop, one optional field per protocol-line kind plus three ability flags. -/
structure TlcsGameState where
  fen : Option String
  white_clock_ms : Option Nat
  black_clock_ms : Option Nat
  status : Option String
  last_move : Option String
  can_offer_draw : Bool
  can_accept_draw : Bool
  can_resign : Bool
deriving DecidableEq, Repr

/-- `TlcsGameState::default()`: all fields `None` / `false`. -/
def TlcsGameState.default : TlcsGameState :=
  ⟨none, none, none, none, none, false, false, false⟩

/-- The `fen ` branch of `update_state_from_line`. -/
def applyFen (n : String) (st : TlcsGameState) : TlcsGameState :=
  match strTail? "fen " n with
  | some f => { st with fen := some (trimStr f) }
  | none => st

/-- The `status ` branch of `update_state_from_line`. -/
def applyStatus (n : String) (st : TlcsGameState) : TlcsGameState :=
  match strTail? "status " n with
  | some s => { st with status := some (trimStr s) }
  | none => st

/-- The `move ` branch of `update_state_from_line`. -/
def applyMove (n : String) (st : TlcsGameState) : TlcsGameState :=
  match strTail? "move " n with
  | some m => { st with last_move := some (trimStr m) }
  | none => st

/-- The `w=<ms>` update inside one part of a `clock ` line. -/
def clockW (st : TlcsGameState) (part : String) : TlcsGameState :=
  match strTail? "w=" part with
  | some v =>
      match parseU64? v with
      | some ms => { st with white_clock_ms := some ms }
      | none => st
  | none => st

/-- The `b=<ms>` update inside one part of a `clock ` line. -/
def clockB (st : TlcsGameState) (part : String) : TlcsGameState :=
  match strTail? "b=" part with
  | some v =>
      match parseU64? v with
      | some ms => { st with black_clock_ms := some ms }
      | none => st
  | none => st

/-- One whitespace-separated part of a `clock ` line: both the `w=` and the
`b=` update are attempted on each part, malformed numbers being ignored. -/
def clockStep (st : TlcsGameState) (part : String) : TlcsGameState :=
  clockB (clockW st part) part

/-- The `clock ` branch of `update_state_from_line`. -/
def applyClock (n : String) (st : TlcsGameState) : TlcsGameState :=
  match strTail? "clock " n with
  | some clockLine => (splitWs clockLine).foldl clockStep st
  | none => st

/-- The `offer draw` branch (case-insensitive whole-line match). -/
def applyOfferDraw (n : String) (st : TlcsGameState) : TlcsGameState :=
  if eqIgnoreAsciiCase n "offer draw" then { st with can_accept_draw := true } else st

/-- The `offer cancel` branch (case-insensitive whole-line match). -/
def applyOfferCancel (n : String) (st : TlcsGameState) : TlcsGameState :=
  if eqIgnoreAsciiCase n "offer cancel" then { st with can_accept_draw := false } else st

/-- `update_state_from_line` from `tlcs.rs`: trims the line, applies each
independent branch in source order, and unconditionally sets
`can_offer_draw` and `can_resign`. -/
def update_state_from_line (state : TlcsGameState) (line : String) : TlcsGameState :=
  let n := trimStr line
  let state := applyFen n state
  let state := applyStatus n state
  let state := applyMove n state
  let state := applyClock n state
  let state := applyOfferDraw n state
  let state := applyOfferCancel n state
  { state with can_offer_draw := true, can_resign := true }

/-! Frame lemmas: each branch of the parser touches only its own fields. -/

@[simp] theorem applyFen_status (n : String) (st : TlcsGameState) :
    (applyFen n st).status = st.status := by unfold applyFen; split <;> rfl

@[simp] theorem applyFen_last_move (n : String) (st : TlcsGameState) :
    (applyFen n st).last_move = st.last_move := by unfold applyFen; split <;> rfl

@[simp] theorem applyFen_white (n : String) (st : TlcsGameState) :
    (applyFen n st).white_clock_ms = st.white_clock_ms := by unfold applyFen; split <;> rfl

@[simp] theorem applyFen_black (n : String) (st : TlcsGameState) :
    (applyFen n st).black_clock_ms = st.black_clock_ms := by unfold applyFen; split <;> rfl

@[simp] theorem applyFen_accept (n : String) (st : TlcsGameState) :
    (applyFen n st).can_accept_draw = st.can_accept_draw := by unfold applyFen; split <;> rfl

@[simp] theorem applyStatus_fen (n : String) (st : TlcsGameState) :
    (applyStatus n st).fen = st.fen := by unfold applyStatus; split <;> rfl

@[simp] theorem applyStatus_last_move (n : String) (st : TlcsGameState) :
    (applyStatus n st).last_move = st.last_move := by unfold applyStatus; split <;> rfl

@[simp] theorem applyStatus_white (n : String) (st : TlcsGameState) :
    (applyStatus n st).white_clock_ms = st.white_clock_ms := by
  unfold applyStatus; split <;> rfl

@[simp] theorem applyStatus_black (n : String) (st : TlcsGameState) :
    (applyStatus n st).black_clock_ms = st.black_clock_ms := by
  unfold applyStatus; split <;> rfl

@[simp] theorem applyStatus_accept (n : String) (st : TlcsGameState) :
    (applyStatus n st).can_accept_draw = st.can_accept_draw := by
  unfold applyStatus; split <;> rfl

@[simp] theorem applyMove_fen (n : String) (st : TlcsGameState) :
    (applyMove n st).fen = st.fen := by unfold applyMove; split <;> rfl

@[simp] theorem applyMove_status (n : String) (st : TlcsGameState) :
    (applyMove n st).status = st.status := by unfold applyMove; split <;> rfl

@[simp] theorem applyMove_white (n : String) (st : TlcsGameState) :
    (applyMove n st).white_clock_ms = st.white_clock_ms := by unfold applyMove; split <;> rfl

@[simp] theorem applyMove_black (n : String) (st : TlcsGameState) :
    (applyMove n st).black_clock_ms = st.black_clock_ms := by unfold applyMove; split <;> rfl

@[simp] theorem applyMove_accept (n : String) (st : TlcsGameState) :
    (applyMove n st).can_accept_draw = st.can_accept_draw := by unfold applyMove; split <;> rfl

@[simp] theorem clockW_fen (st : TlcsGameState) (p : String) :
    (clockW st p).fen = st.fen := by
  unfold clockW; split <;> first | rfl | (split <;> rfl)

@[simp] theorem clockW_status (st : TlcsGameState) (p : String) :
    (clockW st p).status = st.status := by
  unfold clockW; split <;> first | rfl | (split <;> rfl)

@[simp] theorem clockW_last_move (st : TlcsGameState) (p : String) :
    (clockW st p).last_move = st.last_move := by
  unfold clockW; split <;> first | rfl | (split <;> rfl)

@[simp] theorem clockW_accept (st : TlcsGameState) (p : String) :
    (clockW st p).can_accept_draw = st.can_accept_draw := by
  unfold clockW; split <;> first | rfl | (split <;> rfl)

@[simp] theorem clockB_fen (st : TlcsGameState) (p : String) :
    (clockB st p).fen = st.fen := by
  unfold clockB; split <;> first | rfl | (split <;> rfl)

@[simp] theorem clockB_status (st : TlcsGameState) (p : String) :
    (clockB st p).status = st.status := by
  unfold clockB; split <;> first | rfl | (split <;> rfl)

@[simp] theorem clockB_last_move (st : TlcsGameState) (p : String) :
    (clockB st p).last_move = st.last_move := by
  unfold clockB; split <;> first | rfl | (split <;> rfl)

@[simp] theorem clockB_accept (st : TlcsGameState) (p : String) :
    (clockB st p).can_accept_draw = st.can_accept_draw := by
  unfold clockB; split <;> first | rfl | (split <;> rfl)

@[simp] theorem clockFold_fen (ps : List String) (st : TlcsGameState) :
    (ps.foldl clockStep st).fen = st.fen := by
  induction ps generalizing st with
  | nil => rfl
  | cons p ps ih => simp [List.foldl_cons, ih, clockStep]

@[simp] theorem clockFold_status (ps : List String) (st : TlcsGameState) :
    (ps.foldl clockStep st).status = st.status := by
  induction ps generalizing st with
  | nil => rfl
  | cons p ps ih => simp [List.foldl_cons, ih, clockStep]

@[simp] theorem clockFold_last_move (ps : List String) (st : TlcsGameState) :
    (ps.foldl clockStep st).last_move = st.last_move := by
  induction ps generalizing st with
  | nil => rfl
  | cons p ps ih => simp [List.foldl_cons, ih, clockStep]

@[simp] theorem clockFold_accept (ps : List String) (st : TlcsGameState) :
    (ps.foldl clockStep st).can_accept_draw = st.can_accept_draw := by
  induction ps generalizing st with
  | nil => rfl
  | cons p ps ih => simp [List.foldl_cons, ih, clockStep]

@[simp] theorem applyClock_fen (n : String) (st : TlcsGameState) :
    (applyClock n st).fen = st.fen := by
  unfold applyClock; split <;> simp

@[simp] theorem applyClock_status (n : String) (st : TlcsGameState) :
    (applyClock n st).status = st.status := by
  unfold applyClock; split <;> simp

@[simp] theorem applyClock_last_move (n : String) (st : TlcsGameState) :
    (applyClock n st).last_move = st.last_move := by
  unfold applyClock; split <;> simp

@[simp] theorem applyClock_accept (n : String) (st : TlcsGameState) :
    (applyClock n st).can_accept_draw = st.can_accept_draw := by
  unfold applyClock; split <;> simp

@[simp] theorem applyOfferDraw_fen (n : String) (st : TlcsGameState) :
    (applyOfferDraw n st).fen = st.fen := by unfold applyOfferDraw; split <;> rfl

@[simp] theorem applyOfferDraw_status (n : String) (st : TlcsGameState) :
    (applyOfferDraw n st).status = st.status := by unfold applyOfferDraw; split <;> rfl

@[simp] theorem applyOfferDraw_last_move (n : String) (st : TlcsGameState) :
    (applyOfferDraw n st).last_move = st.last_move := by unfold applyOfferDraw; split <;> rfl

@[simp] theorem applyOfferDraw_white (n : String) (st : TlcsGameState) :
    (applyOfferDraw n st).white_clock_ms = st.white_clock_ms := by
  unfold applyOfferDraw; split <;> rfl

@[simp] theorem applyOfferDraw_black (n : String) (st : TlcsGameState) :
    (applyOfferDraw n st).black_clock_ms = st.black_clock_ms := by
  unfold applyOfferDraw; split <;> rfl

@[simp] theorem applyOfferCancel_fen (n : String) (st : TlcsGameState) :
    (applyOfferCancel n st).fen = st.fen := by unfold applyOfferCancel; split <;> rfl

@[simp] theorem applyOfferCancel_status (n : String) (st : TlcsGameState) :
    (applyOfferCancel n st).status = st.status := by unfold applyOfferCancel; split <;> rfl

@[simp] theorem applyOfferCancel_last_move (n : String) (st : TlcsGameState) :
    (applyOfferCancel n st).last_move = st.last_move := by
  unfold applyOfferCancel; split <;> rfl

@[simp] theorem applyOfferCancel_white (n : String) (st : TlcsGameState) :
    (applyOfferCancel n st).white_clock_ms = st.white_clock_ms := by
  unfold applyOfferCancel; split <;> rfl

@[simp] theorem applyOfferCancel_black (n : String) (st : TlcsGameState) :
    (applyOfferCancel n st).black_clock_ms = st.black_clock_ms := by
  unfold applyOfferCancel; split <;> rfl

theorem applyFen_of_none {n : String} (st : TlcsGameState)
    (h : strTail? "fen " n = none) : applyFen n st = st := by
  unfold applyFen; rw [h]

theorem applyStatus_of_none {n : String} (st : TlcsGameState)
    (h : strTail? "status " n = none) : applyStatus n st = st := by
  unfold applyStatus; rw [h]

theorem applyMove_of_none {n : String} (st : TlcsGameState)
    (h : strTail? "move " n = none) : applyMove n st = st := by
  unfold applyMove; rw [h]

theorem applyClock_of_none {n : String} (st : TlcsGameState)
    (h : strTail? "clock " n = none) : applyClock n st = st := by
  unfold applyClock; rw [h]

theorem applyOfferDraw_of_false {n : String} (st : TlcsGameState)
    (h : eqIgnoreAsciiCase n "offer draw" = false) : applyOfferDraw n st = st := by
  unfold applyOfferDraw; rw [h]; rfl

theorem applyOfferCancel_of_false {n : String} (st : TlcsGameState)
    (h : eqIgnoreAsciiCase n "offer cancel" = false) : applyOfferCancel n st = st := by
  unfold applyOfferCancel; rw [h]; rfl

/-- The state holding the example's previous values: both clocks at 60000 ms
and a set fen. -/
def exPrevState : TlcsGameState :=
  { fen := some "r1...", white_clock_ms := some 60000, black_clock_ms := some 60000,
    status := none, last_move := none,
    can_offer_draw := true, can_accept_draw := false, can_resign := true }

/-- C5 counterexample: the line `"clock w=59000 b=61000"` does not mention
`can_offer_draw`, yet applying it to a state whose `can_offer_draw` is `false`
flips that field to `true`: the parser unconditionally sets `can_offer_draw`
and `can_resign` on every processed line, so it is not the case that every
field unmentioned by the line keeps its previous value. -/
theorem update_state_frame_counterexample :
    (update_state_from_line TlcsGameState.default "clock w=59000 b=61000").can_offer_draw ≠
      TlcsGameState.default.can_offer_draw := by
  decide

/-- C5 (amended): `update_state_from_line` is a pure function of
`(state, line)`; every field other than `can_offer_draw` and `can_resign`
that the line does not mention keeps its previous value, `can_offer_draw`
and `can_resign` are unconditionally set `true` by every processed line, and
the line `"clock w=59000 b=61000"` on a state with both clocks at 60000 and a
set fen yields white 59000 / black 61000 with `fen` unchanged. -/
theorem update_state_from_line_frame (s : TlcsGameState) (line : String) :
    (update_state_from_line s line).can_offer_draw = true ∧
    (update_state_from_line s line).can_resign = true ∧
    (strTail? "fen " (trimStr line) = none →
      (update_state_from_line s line).fen = s.fen) ∧
    (strTail? "status " (trimStr line) = none →
      (update_state_from_line s line).status = s.status) ∧
    (strTail? "move " (trimStr line) = none →
      (update_state_from_line s line).last_move = s.last_move) ∧
    (strTail? "clock " (trimStr line) = none →
      (update_state_from_line s line).white_clock_ms = s.white_clock_ms ∧
      (update_state_from_line s line).black_clock_ms = s.black_clock_ms) ∧
    (eqIgnoreAsciiCase (trimStr line) "offer draw" = false →
      eqIgnoreAsciiCase (trimStr line) "offer cancel" = false →
      (update_state_from_line s line).can_accept_draw = s.can_accept_draw) ∧
    update_state_from_line exPrevState "clock w=59000 b=61000" =
      { exPrevState with white_clock_ms := some 59000, black_clock_ms := some 61000 } := by
  refine ⟨rfl, rfl, ?_, ?_, ?_, ?_, ?_, by decide⟩
  · intro h
    simp [update_state_from_line, applyFen_of_none _ h]
  · intro h
    simp [update_state_from_line, applyStatus_of_none _ h]
  · intro h
    simp [update_state_from_line, applyMove_of_none _ h]
  · intro h
    constructor <;> simp [update_state_from_line, applyClock_of_none _ h]
  · intro h1 h2
    simp [update_state_from_line, applyOfferDraw_of_false _ h1,
      applyOfferCancel_of_false _ h2]

/-- C5 witness: the theorem instantiated at the example state and clock line. -/
theorem update_state_from_line_frame_witness :
    (update_state_from_line exPrevState "clock w=59000 b=61000").can_offer_draw = true ∧
    (update_state_from_line exPrevState "clock w=59000 b=61000").can_resign = true ∧
    (strTail? "fen " (trimStr "clock w=59000 b=61000") = none →
      (update_state_from_line exPrevState "clock w=59000 b=61000").fen = exPrevState.fen) ∧
    (strTail? "status " (trimStr "clock w=59000 b=61000") = none →
      (update_state_from_line exPrevState "clock w=59000 b=61000").status =
        exPrevState.status) ∧
    (strTail? "move " (trimStr "clock w=59000 b=61000") = none →
      (update_state_from_line exPrevState "clock w=59000 b=61000").last_move =
        exPrevState.last_move) ∧
    (strTail? "clock " (trimStr "clock w=59000 b=61000") = none →
      (update_state_from_line exPrevState "clock w=59000 b=61000").white_clock_ms =
        exPrevState.white_clock_ms ∧
      (update_state_from_line exPrevState "clock w=59000 b=61000").black_clock_ms =
        exPrevState.black_clock_ms) ∧
    (eqIgnoreAsciiCase (trimStr "clock w=59000 b=61000") "offer draw" = false →
      eqIgnoreAsciiCase (trimStr "clock w=59000 b=61000") "offer cancel" = false →
      (update_state_from_line exPrevState "clock w=59000 b=61000").can_accept_draw =
        exPrevState.can_accept_draw) ∧
    update_state_from_line exPrevState "clock w=59000 b=61000" =
      { exPrevState with white_clock_ms := some 59000, black_clock_ms := some 61000 } :=
  update_state_from_line_frame exPrevState "clock w=59000 b=61000"

/-! ## Connection arguments and the fixed-interval reconnect delay (C10) -/

/-- `TlcsConnectArgs` from `tlcs.rs` (camelCase-deserialized host args). -/
structure TlcsConnectArgs where
  host : String
  port : Nat
  username : String
  password : String
  auto_reconnect : Bool
  reconnect_interval_ms : Nat
deriving DecidableEq, Repr

/-- The sleep duration used by `run_connection` in `tlcs.rs` between a session
ending and the next redial: `opts.reconnect_interval_ms.max(500)` milliseconds. -/
def reconnectSleepMs (opts : TlcsConnectArgs) : Nat :=
  max opts.reconnect_interval_ms 500

/-- C10: the fixed-interval reconnect manager sleeps
`max(reconnect_interval_ms, 500)` ms; a configured interval below 500 ms is
silently raised to 500 ms, while an interval of at least 500 ms is honoured. -/
theorem reconnectSleepMs_floor (o : TlcsConnectArgs) :
    (o.reconnect_interval_ms < 500 → reconnectSleepMs o = 500) ∧
    (500 ≤ o.reconnect_interval_ms → reconnectSleepMs o = o.reconnect_interval_ms) := by
  unfold reconnectSleepMs
  omega

/-- C10 witness: a configured interval of 100 ms is raised to 500 ms. -/
theorem reconnectSleepMs_floor_witness :
    (100 < 500 → reconnectSleepMs ⟨"h", 5000, "u", "p", true, 100⟩ = 500) ∧
    (500 ≤ 100 → reconnectSleepMs ⟨"h", 5000, "u", "p", true, 100⟩ = 100) :=
  reconnectSleepMs_floor ⟨"h", 5000, "u", "p", true, 100⟩

/-! ## The game recorder (`TlcsRecorder`) over an abstract rules engine

The chess rules engine (`shakmaty`) is an external collaborator consumed at
its boundary: syntactic SAN/UCI parsing, interpretation of a parsed move
against a position, printing, and position mutation. It is abstracted as a
record of functions; the recorder logic from `tlcs.rs` is embedded on top of
it. -/

/-- Boundary of the external chess rules engine: `SanPlus::from_ascii`,
`SanPlus::to_move`, `SanPlus::to_string`, `SanPlus::from_move`,
`UciMove::from_ascii`, `UciMove::to_move`, `UciMove::from_move`,
`UciMove::to_string`, and `Chess::play_unchecked`. -/
structure RulesEngine (Pos Mv San Uci : Type) where
  sanFromAscii : String → Option San
  sanToMove : San → Pos → Except String Mv
  sanToString : San → String
  sanPlusFromMove : Pos → Mv → San
  uciFromAscii : String → Option Uci
  uciToMove : Uci → Pos → Except String Mv
  uciFromMove : Mv → Pos → Uci
  uciToString : Uci → String
  playUnchecked : Pos → Mv → Pos

/-- `TlcsRecorder` from `tlcs.rs`: the running position, the move list in
coordinate notation, the optional result, and the text written to the PGN
sink after the header block (`out`). -/
structure TlcsRecorder (Pos : Type) where
  position : Pos
  moves : List String
  result : Option String
  out : String
deriving DecidableEq, Repr

/-- A recorder as built by `TlcsRecorder::new`: position `p0`, no moves, no
result, nothing written after the headers. -/
def freshRecorder {Pos : Type} (p0 : Pos) : TlcsRecorder Pos :=
  ⟨p0, [], none, ""⟩

/-- `TlcsRecorder::finish`: the first call on a recorder with no stored
result records the outcome and writes `"{outcome}\n"`; any later call is a
no-op. -/
def TlcsRecorder.finish {Pos : Type} (self : TlcsRecorder Pos) (outcome : String) :
    TlcsRecorder Pos :=
  if self.result.isSome then self
  else { self with result := some outcome, out := self.out ++ outcome ++ "\n" }

/-- `TlcsRecorder::write_san`: move-number plus SAN plus trailing space on an
even 0-indexed ply, SAN plus trailing space on an odd ply; the ply index is
the current length of the move list. -/
def TlcsRecorder.write_san {Pos : Type} (self : TlcsRecorder Pos) (san : String) :
    TlcsRecorder Pos :=
  let ply := self.moves.length
  let moveNumber := ply / 2 + 1
  if ply % 2 = 0 then
    { self with out := self.out ++ toString moveNumber ++ ". " ++ san ++ " " }
  else
    { self with out := self.out ++ san ++ " " }

/-- The four result markers recognized by `append_token`. -/
def isResultToken (t : String) : Bool :=
  t = "1-0" ∨ t = "0-1" ∨ t = "1/2-1/2" ∨ t = "*"

/-- `TlcsRecorder::append_token`: empty tokens are ignored; result markers
finish the record; otherwise the token is tried as SAN and then as UCI.
A successful syntactic SAN parse commits to the SAN interpretation:
`san.to_move(&self.position)?` propagates an error when the move is illegal.
A successful parse-and-interpretation writes the SAN to the sink, advances
the position, and appends the move in coordinate notation to the move list;
a token failing both syntactic parses is silently dropped. -/
def TlcsRecorder.append_token {Pos Mv San Uci : Type} (E : RulesEngine Pos Mv San Uci)
    (self : TlcsRecorder Pos) (token : String) : Except String (TlcsRecorder Pos) :=
  if token = "" then .ok self
  else if isResultToken token then .ok (self.finish token)
  else
    match E.sanFromAscii token with
    | some san =>
        match E.sanToMove san self.position with
        | .error e => .error e
        | .ok mv =>
            let currentPosition := self.position
            let uci := E.uciFromMove mv currentPosition
            let self := self.write_san (E.sanToString san)
            .ok { self with
                    position := E.playUnchecked self.position mv,
                    moves := self.moves ++ [E.uciToString uci] }
    | none =>
        match E.uciFromAscii token with
        | some uci =>
            match E.uciToMove uci self.position with
            | .error e => .error e
            | .ok mv =>
                let san := E.sanPlusFromMove self.position mv
                let self := self.write_san (E.sanToString san)
                .ok { self with
                        position := E.playUnchecked self.position mv,
                        moves := self.moves ++ [E.uciToString uci] }
        | none => .ok self

/-- One token as fed by the session read loop: `append_moves_from_line`
propagates an `append_token` error to the loop, which logs it and keeps the
recorder as it was; an error leaves the recorder unchanged. -/
def TlcsRecorder.feed_token {Pos Mv San Uci : Type} (E : RulesEngine Pos Mv San Uci)
    (self : TlcsRecorder Pos) (token : String) : TlcsRecorder Pos :=
  match self.append_token E token with
  | .ok next => next
  | .error _ => self

/-- A sequence of tokens fed one by one through `append_token`. -/
def TlcsRecorder.feed_tokens {Pos Mv San Uci : Type} (E : RulesEngine Pos Mv San Uci)
    (self : TlcsRecorder Pos) : List String → TlcsRecorder Pos
  | [] => self
  | t :: ts => (self.feed_token E t).feed_tokens E ts

/-- `TlcsRecorder::tokens_from_line`: split on whitespace, split each chunk
on `.`, trim, drop empty chunks and all-digit chunks (move numbers). -/
def tokens_from_line (line : String) : List String :=
  ((((splitWs line).flatMap (fun t => t.splitOn ".")).map trimStr).filter
      (fun t => t ≠ "")).filter
    (fun t => ¬ t.data.all Char.isDigit)

/-- C4: `finish` is idempotent. On a recorder with no stored result the first
call records that result and writes it to the sink; every subsequent call,
with any result argument, is a no-op, so the stored result stays the first
one. -/
theorem finish_idempotent {Pos : Type} (st : TlcsRecorder Pos) (r1 r2 : String)
    (h : st.result = none) :
    (st.finish r1).result = some r1 ∧
    (st.finish r1).out = st.out ++ r1 ++ "\n" ∧
    (st.finish r1).finish r2 = st.finish r1 ∧
    ((st.finish r1).finish r2).result = some r1 := by
  unfold TlcsRecorder.finish
  simp [h]

/-- C4 witness: finishing a fresh recorder (over a trivial position type)
with `"1-0"` and then `"0-1"` keeps the first result. -/
theorem finish_idempotent_witness :
    ((freshRecorder ()).finish "1-0").result = some "1-0" ∧
    ((freshRecorder ()).finish "1-0").out = "" ++ "1-0" ++ "\n" ∧
    (((freshRecorder ()).finish "1-0").finish "0-1") =
      (freshRecorder ()).finish "1-0" ∧
    ((((freshRecorder ()).finish "1-0").finish "0-1")).result = some "1-0" :=
  finish_idempotent (freshRecorder ()) "1-0" "0-1" rfl

/-! Frame lemmas for the recorder: `finish` and `write_san` leave the
position and the move list unchanged. -/

@[simp] theorem finish_position {Pos : Type} (st : TlcsRecorder Pos) (o : String) :
    (st.finish o).position = st.position := by
  unfold TlcsRecorder.finish; split <;> rfl

@[simp] theorem finish_moves {Pos : Type} (st : TlcsRecorder Pos) (o : String) :
    (st.finish o).moves = st.moves := by
  unfold TlcsRecorder.finish; split <;> rfl

@[simp] theorem write_san_position {Pos : Type} (st : TlcsRecorder Pos) (s : String) :
    (st.write_san s).position = st.position := by
  unfold TlcsRecorder.write_san
  by_cases h : st.moves.length % 2 = 0 <;> simp [h]

@[simp] theorem write_san_moves {Pos : Type} (st : TlcsRecorder Pos) (s : String) :
    (st.write_san s).moves = st.moves := by
  unfold TlcsRecorder.write_san
  by_cases h : st.moves.length % 2 = 0 <;> simp [h]

/-! ## Token classification, legal-move count and replay (C1) -/

/-- The move applied by `append_token` at position `p` for token `t`, if any:
`none` for empty tokens, result markers, tokens failing both syntactic
parses, and tokens that parse syntactically but are illegal at `p`. -/
def tokenMove? {Pos Mv San Uci : Type} (E : RulesEngine Pos Mv San Uci)
    (p : Pos) (t : String) : Option Mv :=
  if t = "" then none
  else if isResultToken t then none
  else
    match E.sanFromAscii t with
    | some san =>
        match E.sanToMove san p with
        | .ok mv => some mv
        | .error _ => none
    | none =>
        match E.uciFromAscii t with
        | some u =>
            match E.uciToMove u p with
            | .ok mv => some mv
            | .error _ => none
        | none => none

/-- The number of tokens of a sequence that parse as legal moves, applied in
order starting at position `p`. -/
def countLegal {Pos Mv San Uci : Type} (E : RulesEngine Pos Mv San Uci)
    (p : Pos) : List String → Nat
  | [] => 0
  | t :: ts =>
      match tokenMove? E p t with
      | some mv => countLegal E (E.playUnchecked p mv) ts + 1
      | none => countLegal E p ts

/-- Replaying a list of coordinate-notation move strings from position `p`:
each entry must parse as UCI and be interpretable at the current position. -/
def replayMoves {Pos Mv San Uci : Type} (E : RulesEngine Pos Mv San Uci)
    (p : Pos) : List String → Option Pos
  | [] => some p
  | u :: rest =>
      match E.uciFromAscii u with
      | some uc =>
          match E.uciToMove uc p with
          | .ok mv => replayMoves E (E.playUnchecked p mv) rest
          | .error _ => none
      | none => none

theorem replayMoves_append {Pos Mv San Uci : Type} (E : RulesEngine Pos Mv San Uci)
    (xs ys : List String) (p : Pos) :
    replayMoves E p (xs ++ ys) =
      match replayMoves E p xs with
      | some q => replayMoves E q ys
      | none => none := by
  induction xs generalizing p with
  | nil => simp [replayMoves]
  | cons u xs ih =>
    cases h1 : E.uciFromAscii u with
    | none => simp [replayMoves, h1]
    | some uc =>
      cases h2 : E.uciToMove uc p with
      | error e => simp [replayMoves, h1, h2]
      | ok mv => simp [replayMoves, h1, h2, ih]

/-- A `feed_token` step on a token that applies a legal move: the position
advances by that move and exactly one replayable coordinate string is
appended to the move list. -/
theorem feed_token_some {Pos Mv San Uci : Type} (E : RulesEngine Pos Mv San Uci)
    (hB : ∀ p mv, E.uciToMove (E.uciFromMove mv p) p = .ok mv)
    (hC : ∀ u, E.uciFromAscii (E.uciToString u) = some u)
    (st : TlcsRecorder Pos) (t : String) (mv : Mv)
    (htm : tokenMove? E st.position t = some mv) :
    (st.feed_token E t).position = E.playUnchecked st.position mv ∧
    ∃ u, (st.feed_token E t).moves = st.moves ++ [E.uciToString u] ∧
         E.uciFromAscii (E.uciToString u) = some u ∧
         E.uciToMove u st.position = .ok mv := by
  unfold tokenMove? at htm
  by_cases h0 : t = ""
  · simp [h0] at htm
  · by_cases h1 : isResultToken t
    · simp [h0, h1] at htm
    · simp only [h0, h1, if_false, Bool.false_eq_true, ite_false] at htm
      cases h2 : E.sanFromAscii t with
      | some san =>
        rw [h2] at htm
        simp only [] at htm
        cases h3 : E.sanToMove san st.position with
        | ok mv2 =>
          rw [h3] at htm
          simp at htm
          subst htm
          constructor
          · simp [TlcsRecorder.feed_token, TlcsRecorder.append_token, h0, h1, h2, h3]
          · refine ⟨E.uciFromMove mv2 st.position, ?_, hC _, hB _ _⟩
            simp [TlcsRecorder.feed_token, TlcsRecorder.append_token, h0, h1, h2, h3]
        | error e =>
          rw [h3] at htm
          simp at htm
      | none =>
        rw [h2] at htm
        simp only [] at htm
        cases h4 : E.uciFromAscii t with
        | some u =>
          rw [h4] at htm
          simp only [] at htm
          cases h5 : E.uciToMove u st.position with
          | ok mv2 =>
            rw [h5] at htm
            simp at htm
            subst htm
            constructor
            · simp [TlcsRecorder.feed_token, TlcsRecorder.append_token, h0, h1, h2, h4, h5]
            · refine ⟨u, ?_, hC u, h5⟩
              simp [TlcsRecorder.feed_token, TlcsRecorder.append_token, h0, h1, h2, h4, h5]
          | error e =>
            rw [h5] at htm
            simp at htm
        | none =>
          rw [h4] at htm
          simp at htm

/-- A `feed_token` step on a token that applies no legal move (empty, result
marker, unparseable, or illegal at the current position): position and move
list are unchanged. -/
theorem feed_token_none {Pos Mv San Uci : Type} (E : RulesEngine Pos Mv San Uci)
    (st : TlcsRecorder Pos) (t : String)
    (htm : tokenMove? E st.position t = none) :
    (st.feed_token E t).position = st.position ∧
    (st.feed_token E t).moves = st.moves := by
  unfold tokenMove? at htm
  by_cases h0 : t = ""
  · simp [TlcsRecorder.feed_token, TlcsRecorder.append_token, h0]
  · by_cases h1 : isResultToken t
    · simp [TlcsRecorder.feed_token, TlcsRecorder.append_token, h0, h1]
    · cases h2 : E.sanFromAscii t with
      | some san =>
        rw [h2] at htm
        simp only [] at htm
        cases h3 : E.sanToMove san st.position with
        | ok mv =>
          rw [h3] at htm
          simp [h0, h1] at htm
        | error e =>
          simp [TlcsRecorder.feed_token, TlcsRecorder.append_token, h0, h1, h2, h3]
      | none =>
        rw [h2] at htm
        simp only [] at htm
        cases h4 : E.uciFromAscii t with
        | some u =>
          rw [h4] at htm
          simp only [] at htm
          cases h5 : E.uciToMove u st.position with
          | ok mv =>
            rw [h5] at htm
            simp [h0, h1] at htm
          | error e =>
            simp [TlcsRecorder.feed_token, TlcsRecorder.append_token, h0, h1, h2, h4, h5]
        | none =>
          simp [TlcsRecorder.feed_token, TlcsRecorder.append_token, h0, h1, h2, h4]

/-- Invariant propagation along a whole token sequence. -/
theorem feed_tokens_spec {Pos Mv San Uci : Type} (E : RulesEngine Pos Mv San Uci)
    (hB : ∀ p mv, E.uciToMove (E.uciFromMove mv p) p = .ok mv)
    (hC : ∀ u, E.uciFromAscii (E.uciToString u) = some u) :
    ∀ (toks : List String) (st : TlcsRecorder Pos),
      (st.feed_tokens E toks).moves.length =
        st.moves.length + countLegal E st.position toks ∧
      ∀ p0, replayMoves E p0 st.moves = some st.position →
        replayMoves E p0 (st.feed_tokens E toks).moves =
          some (st.feed_tokens E toks).position := by
  intro toks
  induction toks with
  | nil => intro st; exact ⟨by simp [TlcsRecorder.feed_tokens, countLegal], by
      intro p0 h; simpa [TlcsRecorder.feed_tokens] using h⟩
  | cons t ts ih =>
    intro st
    cases htm : tokenMove? E st.position t with
    | some mv =>
      obtain ⟨hpos, u, hmoves, hparse, hmove⟩ := feed_token_some E hB hC st t mv htm
      have hrest := ih (st.feed_token E t)
      constructor
      · have hlen : (st.feed_token E t).moves.length = st.moves.length + 1 := by
          rw [hmoves]; simp
        calc ((st.feed_token E t).feed_tokens E ts).moves.length
            = (st.feed_token E t).moves.length +
                countLegal E (st.feed_token E t).position ts := hrest.1
          _ = st.moves.length + countLegal E st.position (t :: ts) := by
              rw [hlen, hpos]
              simp [countLegal, htm]
              omega
      · intro p0 hrep
        apply hrest.2
        rw [hmoves, replayMoves_append E st.moves [E.uciToString u] p0, hrep]
        simp [replayMoves, hparse, hmove, hpos]
    | none =>
      obtain ⟨hpos, hmoves⟩ := feed_token_none E st t htm
      have hrest := ih (st.feed_token E t)
      constructor
      · calc ((st.feed_token E t).feed_tokens E ts).moves.length
            = (st.feed_token E t).moves.length +
                countLegal E (st.feed_token E t).position ts := hrest.1
          _ = st.moves.length + countLegal E st.position (t :: ts) := by
              rw [hmoves, hpos]
              simp [countLegal, htm]
      · intro p0 hrep
        apply hrest.2
        rw [hmoves, hpos]
        exact hrep

/-- C1: for every token sequence fed through `append_token` (errors being
swallowed by the read loop, as in `start_tlcs_stream`), the move list length
equals the number of tokens that parsed as legal moves applied to the
position, and replaying the move list from the starting position reproduces
the recorder's final position, given that the engine's coordinate notation
round-trips (printing a move then parsing and interpreting it at the same
position yields the move back). -/
theorem recorder_moves_invariant {Pos Mv San Uci : Type}
    (E : RulesEngine Pos Mv San Uci)
    (hB : ∀ p mv, E.uciToMove (E.uciFromMove mv p) p = .ok mv)
    (hC : ∀ u, E.uciFromAscii (E.uciToString u) = some u)
    (p0 : Pos) (toks : List String) :
    ((freshRecorder p0).feed_tokens E toks).moves.length = countLegal E p0 toks ∧
    replayMoves E p0 ((freshRecorder p0).feed_tokens E toks).moves =
      some ((freshRecorder p0).feed_tokens E toks).position := by
  have h := feed_tokens_spec E hB hC toks (freshRecorder p0)
  refine ⟨?_, h.2 p0 rfl⟩
  have := h.1
  simpa [freshRecorder] using this

/-- A minimal engine over the one-element position/move/notation types, used
to instantiate the recorder theorems on concrete runs. -/
def unitEngine : RulesEngine (Fin 1) (Fin 1) (Fin 1) (Fin 1) where
  sanFromAscii := fun _ => none
  sanToMove := fun _ _ => .error "no san"
  sanToString := fun _ => "m"
  sanPlusFromMove := fun _ _ => 0
  uciFromAscii := fun s => if s = "m" then some 0 else none
  uciToMove := fun _ _ => .ok 0
  uciFromMove := fun _ _ => 0
  uciToString := fun _ => "m"
  playUnchecked := fun p _ => p

/-- C1 witness: a concrete run with one legal move, one result marker and one
unparseable token has move-list length 1 and replays to the final position. -/
theorem recorder_moves_invariant_witness :
    ((freshRecorder (0 : Fin 1)).feed_tokens unitEngine ["m", "1-0", "zz"]).moves.length =
      countLegal unitEngine 0 ["m", "1-0", "zz"] ∧
    replayMoves unitEngine 0
        ((freshRecorder (0 : Fin 1)).feed_tokens unitEngine ["m", "1-0", "zz"]).moves =
      some ((freshRecorder (0 : Fin 1)).feed_tokens unitEngine ["m", "1-0", "zz"]).position :=
  recorder_moves_invariant unitEngine
    (by intro p mv
        have : mv = 0 := Subsingleton.elim _ _
        subst this
        rfl)
    (by intro u
        have : u = 0 := Subsingleton.elim _ _
        subst this
        rfl)
    0 ["m", "1-0", "zz"]

/-! ## The opening example (C3) and the silent-drop behavior (C2) -/

/-- Modelled from the spec: the boundary behavior of the external chess rules
engine (`shakmaty`, not part of this repository) on the standard opening
`1. e4 e5 2. Nf3`. Positions are numbered 0..3 along the opening line;
`"e4"`, `"e5"`, `"Nf3"` parse syntactically as SAN and are legal exactly at
plies 0, 1, 2; their coordinate forms are `"e2e4"`, `"e7e5"`, `"g1f3"`;
`"e5"` is syntactically valid SAN but illegal at the start position, and
move-number chunks like `"1."` parse neither as SAN nor as UCI. -/
def openingEngine : RulesEngine Nat Nat String String where
  sanFromAscii := fun t => if t = "e4" ∨ t = "e5" ∨ t = "Nf3" then some t else none
  sanToMove := fun s p =>
    if s = "e4" ∧ p = 0 then .ok 0
    else if s = "e5" ∧ p = 1 then .ok 1
    else if s = "Nf3" ∧ p = 2 then .ok 2
    else .error "illegal san"
  sanToString := fun s => s
  sanPlusFromMove := fun _ m => if m = 0 then "e4" else if m = 1 then "e5" else "Nf3"
  uciFromAscii := fun t => if t = "e2e4" ∨ t = "e7e5" ∨ t = "g1f3" then some t else none
  uciToMove := fun u p =>
    if u = "e2e4" ∧ p = 0 then .ok 0
    else if u = "e7e5" ∧ p = 1 then .ok 1
    else if u = "g1f3" ∧ p = 2 then .ok 2
    else .error "illegal uci"
  uciFromMove := fun m _ => if m = 0 then "e2e4" else if m = 1 then "e7e5" else "g1f3"
  uciToString := fun u => u
  playUnchecked := fun p _ => p + 1

/-- The example token sequence from the spec. -/
def c3Tokens : List String := ["1.", "e4", "e5", "2.", "Nf3", "1-0"]

/-- The recorder after feeding the example tokens to a fresh recorder started
from the standard initial position (position index 0). -/
def c3Run : TlcsRecorder Nat := (freshRecorder 0).feed_tokens openingEngine c3Tokens

/-- C3 counterexample: the PGN move-text written by the example run is not
the exact string `"1. e4 e5 2. Nf3 1-0"` — `finish` writes the result
followed by a newline, so the body carries a trailing `"\n"`. -/
theorem opening_example_body_counterexample :
    c3Run.out ≠ "1. e4 e5 2. Nf3 1-0" := by
  decide

/-- C3 (amended): feeding `["1.", "e4", "e5", "2.", "Nf3", "1-0"]` to a fresh
recorder yields move list `["e2e4", "e7e5", "g1f3"]`, result `"1-0"`, and a
PGN move-text body equal to `"1. e4 e5 2. Nf3 1-0"` followed by the
terminating newline written by `finish` (move-number plus white move with
trailing space on even 0-indexed ply, move-number `ply / 2 + 1`; black move
with trailing space only on odd ply). -/
theorem opening_example_run :
    c3Run.moves = ["e2e4", "e7e5", "g1f3"] ∧
    c3Run.result = some "1-0" ∧
    c3Run.out = "1. e4 e5 2. Nf3 1-0" ++ "\n" := by
  refine ⟨by decide, by decide, by decide⟩

/-- Returns `true` iff `append_token` signalled an error for this token. -/
def appendErrored {Pos Mv San Uci : Type} (E : RulesEngine Pos Mv San Uci)
    (self : TlcsRecorder Pos) (token : String) : Bool :=
  match self.append_token E token with
  | .error _ => true
  | .ok _ => false

/-- Returns `true` iff the engine rejects this value as an error. -/
def exceptErrored {ε α : Type} : Except ε α → Bool
  | .error _ => true
  | .ok _ => false

/-- C2 counterexample: the token `"e5"` at the start position is not a result
marker and fails both the SAN and the UCI interpretation against the current
position (it parses syntactically as SAN but `to_move` rejects it, and it is
not syntactically valid UCI); yet `append_token` does not return
successfully — the `?` on `san.to_move(&self.position)` propagates the error
upward to `append_moves_from_line`. -/
theorem append_token_error_counterexample :
    isResultToken "e5" = false ∧
    openingEngine.sanFromAscii "e5" = some "e5" ∧
    exceptErrored (openingEngine.sanToMove "e5" 0) = true ∧
    openingEngine.uciFromAscii "e5" = none ∧
    appendErrored openingEngine (freshRecorder 0) "e5" = true := by
  refine ⟨by decide, by decide, by decide, by decide, by decide⟩

/-- C2 (amended): a non-result token that fails both *syntactic* parses (SAN
and UCI) is silently dropped — `append_token` returns `Ok` and leaves the
recorder (position, move list, output sink) unchanged; by contrast a token
that parses syntactically but is illegal at the current position makes
`append_token` return an error, which `append_moves_from_line` propagates
and the session read loop logs and swallows. -/
theorem append_token_silent_drop {Pos Mv San Uci : Type}
    (E : RulesEngine Pos Mv San Uci) (st : TlcsRecorder Pos) (t : String)
    (hsan : E.sanFromAscii t = none) (huci : E.uciFromAscii t = none)
    (hres : isResultToken t = false) :
    st.append_token E t = .ok st := by
  unfold TlcsRecorder.append_token
  by_cases h0 : t = ""
  · simp [h0]
  · simp [h0, hres, hsan, huci]

/-- C2 witness: the move-number chunk `"1."` is silently dropped by a fresh
recorder over the opening engine. -/
theorem append_token_silent_drop_witness :
    openingEngine.sanFromAscii "1." = none ∧
    openingEngine.uciFromAscii "1." = none ∧
    isResultToken "1." = false ∧
    (freshRecorder (0 : Nat)).append_token openingEngine "1." =
      .ok (freshRecorder 0) :=
  ⟨by decide, by decide, by decide,
    append_token_silent_drop openingEngine (freshRecorder 0) "1."
      (by decide) (by decide) (by decide)⟩

/-! ## The connection manager swap (`TlcsManager::connect`, C6) -/

/-- Observable events of one `TlcsManager::connect` call, in execution order:
signalling the old handle (`control.send(Disconnect)`), joining its task
(`join.await`), spawning the new `run_connection` task, and installing the
new handle via `replace_running(Some(..))`. -/
inductive MgrEvent where
  | signalled (h : Nat)
  | joined (h : Nat)
  | spawned (h : Nat)
  | installed (h : Nat)
deriving DecidableEq, Repr

/-- `TlcsManager` from `tlcs.rs`: the single optional connection handle (as a
session id), the set of sessions already shut down (signalled and joined),
the remembered `last_options`, and a fresh-id counter for spawned sessions. -/
structure TlcsManagerState where
  handle : Option Nat
  stopped : List Nat
  last_options : Option TlcsConnectArgs
  nextId : Nat
deriving DecidableEq, Repr

/-- `TlcsManager::connect`, step by step: store `last_options`, take the old
handle out via `replace_running(None)`, shut it down (signal + join) when
present, then spawn the new task and install its handle via
`replace_running(Some(..))`. -/
def connectMgr (s : TlcsManagerState) (o : TlcsConnectArgs) : TlcsManagerState :=
  let s1 := { s with last_options := some o }
  let old := s1.handle
  let s2 := { s1 with handle := none }
  let s3 :=
    match old with
    | some h => { s2 with stopped := h :: s2.stopped }
    | none => s2
  { s3 with handle := some s3.nextId, nextId := s3.nextId + 1 }

/-- The event trace of one `connect` call from state `s`. -/
def connectTrace (s : TlcsManagerState) : List MgrEvent :=
  match s.handle with
  | some h => [.signalled h, .joined h, .spawned s.nextId, .installed s.nextId]
  | none => [.spawned s.nextId, .installed s.nextId]

/-- A session can send or receive only while it is the installed handle and
has not been shut down. -/
def canSend (s : TlcsManagerState) (h : Nat) : Prop :=
  s.handle = some h ∧ h ∉ s.stopped

/-- `a` occurs strictly before `b` in the trace. -/
def eventBefore (tr : List MgrEvent) (a b : MgrEvent) : Prop :=
  ∃ i j, i < j ∧ tr.get? i = some a ∧ tr.get? j = some b

/-- C6: when `connect` is invoked while a handle `h` is installed, the new
handle is installed, `h` has been fully shut down — with the join of `h`
strictly preceding the installation of the new handle in the call's event
trace — and afterwards `h` can no longer send or receive: the only session
that can send is the newly installed one. -/
theorem connect_single_session (s : TlcsManagerState) (o : TlcsConnectArgs)
    (h : Nat) (hins : s.handle = some h) :
    (connectMgr s o).handle = some s.nextId ∧
    h ∈ (connectMgr s o).stopped ∧
    eventBefore (connectTrace s) (.joined h) (.installed s.nextId) ∧
    ¬ canSend (connectMgr s o) h ∧
    (∀ g, canSend (connectMgr s o) g → g = s.nextId) := by
  have hmgr : connectMgr s o =
      { handle := some s.nextId, stopped := h :: s.stopped,
        last_options := some o, nextId := s.nextId + 1 } := by
    unfold connectMgr
    rw [hins]
  refine ⟨by rw [hmgr], by rw [hmgr]; exact List.mem_cons_self _ _, ?_, ?_, ?_⟩
  · refine ⟨1, 3, by omega, ?_, ?_⟩ <;> rw [connectTrace, hins] <;> rfl
  · intro hc
    rw [hmgr] at hc
    exact hc.2 (List.mem_cons_self _ _)
  · intro g hc
    rw [hmgr] at hc
    have := hc.1
    simpa using this.symm

/-- C6 witness: connecting while session 5 is installed stops 5 before
installing the fresh session 7. -/
theorem connect_single_session_witness :
    (connectMgr ⟨some 5, [], none, 7⟩ ⟨"h", 5000, "u", "p", true, 1000⟩).handle = some 7 ∧
    5 ∈ (connectMgr ⟨some 5, [], none, 7⟩ ⟨"h", 5000, "u", "p", true, 1000⟩).stopped ∧
    eventBefore (connectTrace ⟨some 5, [], none, 7⟩) (.joined 5) (.installed 7) ∧
    ¬ canSend (connectMgr ⟨some 5, [], none, 7⟩ ⟨"h", 5000, "u", "p", true, 1000⟩) 5 ∧
    (∀ g, canSend (connectMgr ⟨some 5, [], none, 7⟩ ⟨"h", 5000, "u", "p", true, 1000⟩) g →
      g = 7) :=
  connect_single_session ⟨some 5, [], none, 7⟩ ⟨"h", 5000, "u", "p", true, 1000⟩ 5 rfl

/-! ## Exponential backoff in `tlcs_client.rs` `run_connection` (C7) -/

/-- `MIN_BACKOFF_SECS` from `tlcs_client.rs`. -/
def MIN_BACKOFF_SECS : Nat := 1

/-- `MAX_BACKOFF_SECS` from `tlcs_client.rs`. -/
def MAX_BACKOFF_SECS : Nat := 30

/-- One iteration of the reconnect loop: either the dial fails, or it
succeeds and the session later drops (read loop ends). -/
inductive AttemptOutcome where
  | fail
  | succDrop
deriving DecidableEq, Repr

/-- The delays slept by `run_connection`'s loop, starting with backoff `b`:
a failed dial sleeps the current backoff and doubles it (capped at the
maximum); a successful connect resets the backoff to the minimum, and when
that session drops the loop sleeps the (reset) backoff and doubles it. -/
def runDelays : Nat → List AttemptOutcome → List Nat
  | _, [] => []
  | b, .fail :: rest => b :: runDelays (min (b * 2) MAX_BACKOFF_SECS) rest
  | _, .succDrop :: rest =>
      MIN_BACKOFF_SECS :: runDelays (min (MIN_BACKOFF_SECS * 2) MAX_BACKOFF_SECS) rest

theorem runDelays_bounds : ∀ (os : List AttemptOutcome) (b : Nat),
    MIN_BACKOFF_SECS ≤ b → b ≤ MAX_BACKOFF_SECS →
    ∀ d ∈ runDelays b os, MIN_BACKOFF_SECS ≤ d ∧ d ≤ MAX_BACKOFF_SECS := by
  intro os
  induction os with
  | nil => intro b _ _ d hd; simp [runDelays] at hd
  | cons o rest ih =>
    intro b h1 h2 d hd
    cases o with
    | fail =>
      rw [runDelays] at hd
      rcases List.mem_cons.mp hd with h | h
      · exact ⟨h ▸ h1, h ▸ h2⟩
      · refine ih _ ?_ ?_ d h <;>
          simp only [MIN_BACKOFF_SECS, MAX_BACKOFF_SECS] at * <;> omega
    | succDrop =>
      rw [runDelays] at hd
      rcases List.mem_cons.mp hd with h | h
      · subst h
        simp [MIN_BACKOFF_SECS, MAX_BACKOFF_SECS]
      · refine ih _ ?_ ?_ d h <;>
          simp only [MIN_BACKOFF_SECS, MAX_BACKOFF_SECS] at * <;> omega

theorem runDelays_fail_chain : ∀ (n : Nat) (b : Nat),
    MIN_BACKOFF_SECS ≤ b → b ≤ MAX_BACKOFF_SECS →
    List.Chain' (· ≤ ·) (runDelays b (List.replicate n .fail)) := by
  intro n
  induction n with
  | zero => intro b _ _; simp [runDelays]
  | succ n ih =>
    intro b h1 h2
    rw [List.replicate_succ, runDelays, List.chain'_cons']
    constructor
    · intro y hy
      cases n with
      | zero => simp [runDelays] at hy
      | succ m =>
        rw [List.replicate_succ, runDelays] at hy
        simp only [List.head?_cons, Option.mem_def, Option.some.injEq] at hy
        subst hy
        simp only [MIN_BACKOFF_SECS, MAX_BACKOFF_SECS] at *
        omega
    · refine ih _ ?_ ?_ <;>
        simp only [MIN_BACKOFF_SECS, MAX_BACKOFF_SECS] at * <;> omega

/-- C7: starting from any backoff within the configured bounds, every delay
slept by the reconnect loop lies between the minimum (1 s) and the maximum
(30 s); the delays of a run of consecutive dial failures form a
non-decreasing sequence; a fresh loop's failure delays start at the minimum;
and after any successful connect the next delay is back at the minimum. -/
theorem backoff_delays (b n : Nat) (os : List AttemptOutcome)
    (h1 : MIN_BACKOFF_SECS ≤ b) (h2 : b ≤ MAX_BACKOFF_SECS) :
    (∀ d ∈ runDelays b os, MIN_BACKOFF_SECS ≤ d ∧ d ≤ MAX_BACKOFF_SECS) ∧
    List.Chain' (· ≤ ·) (runDelays b (List.replicate n .fail)) ∧
    (0 < n →
      (runDelays MIN_BACKOFF_SECS (List.replicate n .fail)).head? =
        some MIN_BACKOFF_SECS) ∧
    (runDelays b (.succDrop :: os)).head? = some MIN_BACKOFF_SECS := by
  refine ⟨runDelays_bounds os b h1 h2, runDelays_fail_chain n b h1 h2, ?_, rfl⟩
  intro hn
  cases n with
  | zero => omega
  | succ m => rw [List.replicate_succ, runDelays]; rfl

/-- C7 witness: three consecutive dial failures from a fresh loop sleep
1 s, 2 s, 4 s — non-decreasing, within bounds, starting at the minimum. -/
theorem backoff_delays_witness :
    (∀ d ∈ runDelays MIN_BACKOFF_SECS [.fail, .fail, .fail],
      MIN_BACKOFF_SECS ≤ d ∧ d ≤ MAX_BACKOFF_SECS) ∧
    List.Chain' (· ≤ ·) (runDelays MIN_BACKOFF_SECS (List.replicate 3 .fail)) ∧
    (0 < 3 →
      (runDelays MIN_BACKOFF_SECS (List.replicate 3 .fail)).head? =
        some MIN_BACKOFF_SECS) ∧
    (runDelays MIN_BACKOFF_SECS (.succDrop :: [.fail, .fail, .fail])).head? =
      some MIN_BACKOFF_SECS :=
  backoff_delays MIN_BACKOFF_SECS 3 [.fail, .fail, .fail] (by decide) (by decide)

/-! ## RotatingLog rotation (C8)

The file system is modelled by the sizes of the primary log file and of the
numbered backup files `path.log.<i>`; `none` means the file does not exist.
A written line is represented by its length in bytes. -/

/-- `RotatingLogInner` configuration from `tlcs.rs`. -/
structure RotatingLogCfg where
  max_bytes : Nat
  max_files : Nat
deriving DecidableEq, Repr

/-- The rotating log's file set: the primary file and the numbered backups. -/
structure LogFS where
  primary : Option Nat
  backups : Nat → Option Nat

/-- One iteration of the rotation loop: `rename(path.log.<i>, path.log.<i+1>)`
if the source exists (rename overwrites the destination and removes the
source); otherwise nothing. -/
def shiftOne (fs : LogFS) (i : Nat) : LogFS :=
  match fs.backups i with
  | some v =>
      { fs with
          backups := fun j =>
            if j = i + 1 then some v else if j = i then none else fs.backups j }
  | none => fs

/-- The rotation loop `for index in (1..max_files).rev()`: processes indices
`i, i-1, ..., 1` in descending order. -/
def shiftDown (fs : LogFS) : Nat → LogFS
  | 0 => fs
  | i + 1 => shiftDown (shiftOne fs (i + 1)) i

/-- `RotatingLog::rotate_if_needed`: no-op when the primary is missing or
smaller than `max_bytes`; otherwise shift the backups up by one index and
rename the primary to backup index 1. -/
def rotate_if_needed (cfg : RotatingLogCfg) (fs : LogFS) : LogFS :=
  match fs.primary with
  | none => fs
  | some len =>
      if len < cfg.max_bytes then fs
      else
        let fs1 := shiftDown fs (cfg.max_files - 1)
        { primary := none,
          backups := fun j => if j = 1 then some len else fs1.backups j }

/-- `RotatingLog::write`: rotate if needed, then append one line of
`lineLen` bytes to the primary (creating it when missing). -/
def rotating_log_write (cfg : RotatingLogCfg) (fs : LogFS) (lineLen : Nat) : LogFS :=
  let fs1 := rotate_if_needed cfg fs
  match fs1.primary with
  | none => { fs1 with primary := some lineLen }
  | some len => { fs1 with primary := some (len + lineLen) }

theorem shiftDown_untouched : ∀ (i : Nat) (fs : LogFS) (j : Nat), i + 1 < j →
    (shiftDown fs i).backups j = fs.backups j := by
  intro i
  induction i with
  | zero => intro fs j _; rfl
  | succ i ih =>
    intro fs j hj
    show (shiftDown (shiftOne fs (i + 1)) i).backups j = _
    rw [ih _ _ (by omega)]
    unfold shiftOne
    cases h : fs.backups (i + 1) with
    | none => rfl
    | some v =>
      simp only []
      rw [if_neg (by omega), if_neg (by omega)]

theorem shiftDown_shifts : ∀ (i : Nat) (fs : LogFS) (j v : Nat), 1 ≤ j → j ≤ i →
    fs.backups j = some v → (shiftDown fs i).backups (j + 1) = some v := by
  intro i
  induction i with
  | zero => intro fs j v h1 h2 _; omega
  | succ i ih =>
    intro fs j v h1 h2 hb
    show (shiftDown (shiftOne fs (i + 1)) i).backups (j + 1) = some v
    by_cases hj : j = i + 1
    · subst hj
      rw [shiftDown_untouched i _ (i + 1 + 1) (by omega)]
      unfold shiftOne
      rw [hb]
      simp
    · refine ih _ j v h1 (by omega) ?_
      unfold shiftOne
      cases hB : fs.backups (i + 1) with
      | none => exact hb
      | some w =>
        simp only []
        rw [if_neg (by omega), if_neg hj]
        exact hb

/-- C8 counterexample: with `max_bytes = 4`, a primary of size 10 and a
13-byte line, the write triggers rotation, yet immediately afterwards the
primary holds the whole new line and is larger than `max_bytes`: the bound
claimed for the primary holds only when the written line itself fits in
`max_bytes`. -/
theorem rotating_log_counterexample :
    (⟨4, 2⟩ : RotatingLogCfg).max_bytes ≤ 10 ∧
    (rotating_log_write ⟨4, 2⟩ ⟨some 10, fun _ => none⟩ 13).primary = some 13 ∧
    ¬ (13 ≤ (⟨4, 2⟩ : RotatingLogCfg).max_bytes) := by
  refine ⟨by decide, rfl, by decide⟩

/-- C8 (amended): `write` checks the primary's size before every append and
rotates when it meets or exceeds `max_bytes`: every existing backup at index
`1 ≤ j < max_files` is shifted up to index `j + 1` (so only the generation
at index `max_files` can be dropped), the primary becomes backup index 1,
and — provided the written line itself is at most `max_bytes` — the primary
immediately after a rotation-triggering write holds exactly that line and is
not larger than `max_bytes`. -/
theorem rotating_log_rotation (cfg : RotatingLogCfg) (fs : LogFS)
    (lineLen len : Nat) (hp : fs.primary = some len)
    (htrig : cfg.max_bytes ≤ len) (hline : lineLen ≤ cfg.max_bytes) :
    ((rotating_log_write cfg fs lineLen).primary = some lineLen ∧
      lineLen ≤ cfg.max_bytes) ∧
    (rotate_if_needed cfg fs).backups 1 = some len ∧
    (∀ j v, 1 ≤ j → j < cfg.max_files → fs.backups j = some v →
      (rotate_if_needed cfg fs).backups (j + 1) = some v) := by
  have hrot : rotate_if_needed cfg fs =
      { primary := none,
        backups := fun j =>
          if j = 1 then some len
          else (shiftDown fs (cfg.max_files - 1)).backups j } := by
    unfold rotate_if_needed
    rw [hp]
    simp only [show ¬ (len < cfg.max_bytes) from by omega, if_false, ite_false]
  refine ⟨⟨?_, hline⟩, ?_, ?_⟩
  · unfold rotating_log_write
    rw [hrot]
  · rw [hrot]
    simp
  · intro j v hj1 hj2 hb
    rw [hrot]
    simp only []
    rw [if_neg (by omega)]
    exact shiftDown_shifts (cfg.max_files - 1) fs j v hj1 (by omega) hb

/-- C8 witness: with `max_bytes = 4`, `max_files = 3`, primary size 5,
backups 11 and 12 at indices 1 and 2, a 2-byte line triggers rotation;
backup 1 moves to 2, backup 2 moves to 3, the old primary becomes backup 1
and the new primary holds the 2-byte line. -/
theorem rotating_log_rotation_witness :
    ((rotating_log_write ⟨4, 3⟩
        ⟨some 5, fun j => if j = 1 then some 11 else if j = 2 then some 12 else none⟩
        2).primary = some 2 ∧ 2 ≤ (⟨4, 3⟩ : RotatingLogCfg).max_bytes) ∧
    (rotate_if_needed ⟨4, 3⟩
        ⟨some 5, fun j => if j = 1 then some 11 else if j = 2 then some 12 else none⟩
      ).backups 1 = some 5 ∧
    (∀ j v, 1 ≤ j → j < (⟨4, 3⟩ : RotatingLogCfg).max_files →
      (⟨some 5, fun j => if j = 1 then some 11 else if j = 2 then some 12 else none⟩ : LogFS).backups j = some v →
      (rotate_if_needed ⟨4, 3⟩
          ⟨some 5, fun j => if j = 1 then some 11 else if j = 2 then some 12 else none⟩
        ).backups (j + 1) = some v) :=
  rotating_log_rotation ⟨4, 3⟩
    ⟨some 5, fun j => if j = 1 then some 11 else if j = 2 then some 12 else none⟩
    2 5 rfl (by decide) (by decide)

/-! ## Outbound frame termination (C9) -/

/-- The CRLF terminator. -/
def crlf : List Char := ['\r', '\n']

/-- `ends_with("\r\n")` on a byte/char sequence. -/
def endsWithCrlf (l : List Char) : Bool :=
  match l.reverse with
  | a :: b :: _ => a == '\n' && b == '\r'
  | _ => false

/-- `TlcsManager::send_frame` framing (`tlcs_client.rs`): append CRLF only
when the message does not already end with it. -/
def send_frame_bytes (message : List Char) : List Char :=
  if endsWithCrlf message then message else message ++ crlf

/-- `send_keep_alive` framing (`tlcs_client.rs`): same conditional append. -/
def send_keep_alive_bytes (message : List Char) : List Char :=
  if endsWithCrlf message then message else message ++ crlf

/-- The write in `handle_stream` (`tlcs.rs`), used for the login line and for
`TlcsControl::Send` commands: `format!("{cmd}\r\n")` — the terminator is
appended unconditionally. -/
def handle_stream_frame (cmd : List Char) : List Char := cmd ++ crlf

/-- The login line `format!("USER {} {}", username, password)`. -/
def login_line (user pass : List Char) : List Char :=
  "USER ".data ++ user ++ " ".data ++ pass

/-- `TlcsControl` from `tlcs.rs`. -/
inductive TlcsControl where
  | send (cmd : List Char)
  | disconnect
  | reconnect

/-- The control branch of `handle_stream`'s select loop: `none` means the
loop continues; `some b` means `handle_stream` returns `b` and the session
ends. A failed write on a `Send` command ends the session (returns `false`). -/
def control_step (writeOk : List Char → Bool) : Option TlcsControl → Option Bool
  | some (.send cmd) =>
      if writeOk (handle_stream_frame cmd) then none else some false
  | some .disconnect => some true
  | some .reconnect => some false
  | none => some false

theorem endsWithCrlf_append (l : List Char) : endsWithCrlf (l ++ crlf) = true := by
  have h : (l ++ crlf).reverse = '\n' :: '\r' :: l.reverse := by
    simp [crlf]
  unfold endsWithCrlf
  rw [h]
  rfl

/-- C9 counterexample: the login frame for username `"u"` and a password
ending in `"\r\n"` already carries the terminator, yet the `handle_stream`
write path appends another CRLF unconditionally, producing a doubled
terminator instead of writing the frame unchanged. -/
theorem handle_stream_doubles_terminator :
    endsWithCrlf (login_line "u".data "p\r\n".data) = true ∧
    handle_stream_frame (login_line "u".data "p\r\n".data) =
      "USER u p\r\n\r\n".data ∧
    handle_stream_frame (login_line "u".data "p\r\n".data) ≠
      login_line "u".data "p\r\n".data := by
  refine ⟨by decide, by decide, by decide⟩

/-- C9 (amended): every outbound frame is written ending in CRLF, and a write
failure terminates the session; `send_frame` and `send_keep_alive` append
the terminator only when it is missing (a frame already carrying it is
written unchanged), but the `handle_stream` write path in `tlcs.rs` appends
CRLF unconditionally, so a frame already ending in CRLF is written there
with a doubled terminator. -/
theorem outbound_frames_crlf (msg cmd : List Char) (writeOk : List Char → Bool) :
    endsWithCrlf (send_frame_bytes msg) = true ∧
    endsWithCrlf (send_keep_alive_bytes msg) = true ∧
    endsWithCrlf (handle_stream_frame cmd) = true ∧
    (endsWithCrlf msg = true →
      send_frame_bytes msg = msg ∧ send_keep_alive_bytes msg = msg) ∧
    (endsWithCrlf msg = false → send_frame_bytes msg = msg ++ crlf) ∧
    handle_stream_frame cmd = cmd ++ crlf ∧
    (writeOk (handle_stream_frame cmd) = false →
      control_step writeOk (some (.send cmd)) = some false) := by
  refine ⟨?_, ?_, endsWithCrlf_append cmd, ?_, ?_, rfl, ?_⟩
  · unfold send_frame_bytes
    by_cases h : endsWithCrlf msg <;> simp [h, endsWithCrlf_append]
  · unfold send_keep_alive_bytes
    by_cases h : endsWithCrlf msg <;> simp [h, endsWithCrlf_append]
  · intro h
    constructor <;> simp [send_frame_bytes, send_keep_alive_bytes, h]
  · intro h
    simp [send_frame_bytes, h]
  · intro h
    simp [control_step, h]

/-- C9 witness: concrete frames — `"PING"` gains a terminator, and a failing
write on an `"ACCEPT"` command ends the session. -/
theorem outbound_frames_crlf_witness :
    endsWithCrlf (send_frame_bytes "PING".data) = true ∧
    endsWithCrlf (send_keep_alive_bytes "PING".data) = true ∧
    endsWithCrlf (handle_stream_frame "ACCEPT".data) = true ∧
    (endsWithCrlf "PING".data = true →
      send_frame_bytes "PING".data = "PING".data ∧
      send_keep_alive_bytes "PING".data = "PING".data) ∧
    (endsWithCrlf "PING".data = false →
      send_frame_bytes "PING".data = "PING".data ++ crlf) ∧
    handle_stream_frame "ACCEPT".data = "ACCEPT".data ++ crlf ∧
    ((fun _ => false : List Char → Bool) (handle_stream_frame "ACCEPT".data) = false →
      control_step (fun _ => false) (some (.send "ACCEPT".data)) = some false) :=
  outbound_frames_crlf "PING".data "ACCEPT".data (fun _ => false)
